import Mathlib

/-!
Shallow embedding of the CineBoard input-processing service core:
the progress ledger (status repository / input repository), the
ordered-fallback resolution engine (language detection service and
translation strategy), the result cache wrapper, and the pipeline
orchestrator (app/workflows/pipeline.py).

Conventions of the embedding:
- timestamps are naturals (whole seconds); each repository call receives the
  current time as an explicit argument.  The source reads the wall clock at
  most twice inside one call, microseconds apart; at whole-second granularity
  both reads are modelled by the one argument.
- floating-point confidence scores are rationals; the source only ever
  compares them with a threshold and never exploits float rounding.
- JSON-ish payloads (phase_data, error_details) are association lists of
  strings; the serialization round trip (json / parse_raw) is abstracted as
  the identity, and the result cache stores typed values directly.
- raised Python exceptions are `Except.error` carrying str(e); a function
  whose Lean type is total embeds code whose try/except structure cannot let
  an exception escape.
- fields the claims never look at (updated_at, ip_address, session id,
  alternative_languages, ...) are omitted from the records.
-/

namespace CineBoard

/-- Processing phases, from `ProcessingPhase` in app/schemas/input_processing.py
(the four phases the pipeline writes). -/
inductive Phase where
  | validation
  | language_detection
  | translation
  | preprocessing
deriving DecidableEq, Repr

/-- Per-phase status values, from `ProcessingStatus` in the schemas module. -/
inductive PStatus where
  | pending
  | processing
  | completed
  | failed
  | skipped
deriving DecidableEq, Repr

/-- Opaque JSON-like payload: an association list of string keys and values. -/
abbrev Dict := List (String × String)

/-- Python truthiness of an optional string: `None` and `""` are falsy. -/
def truthyStr : Option String → Bool
  | none => false
  | some s => !s.isEmpty

/-- Python truthiness of an optional dict: `None` and `{}` are falsy. -/
def truthyDict : Option Dict → Bool
  | none => false
  | some d => !d.isEmpty

/-- One row of the `processing_status` table (model `ProcessingStatus`). -/
structure StatusRow where
  id : Nat
  input_record_id : Nat
  phase : Phase
  status : PStatus
  progress_percentage : Nat
  phase_data : Option Dict
  error_message : Option String
  error_details : Option Dict
  started_at : Nat
  completed_at : Option Nat
  duration_seconds : Option Int
deriving DecidableEq, Repr

/-- One row of the `input_records` table (model `InputRecord`). -/
structure InputRecord where
  id : Nat
  user_id : Nat
  raw_input : String
  status : String
  current_phase : String
  detected_language : Option String
  language_confidence : Option Rat
  translation_result : Option Dict
  processed_at : Option Nat
deriving DecidableEq, Repr

/-- The durable store: both tables plus the next fresh status-row id. -/
structure DB where
  records : List InputRecord
  statuses : List StatusRow
  next_status_id : Nat
deriving Repr

/-- Row selector used by `StatusRepository.update`: the row belongs to the
given input record and phase. -/
def statusMatches (i : Nat) (ph : Phase) (r : StatusRow) : Bool :=
  r.input_record_id == i && r.phase == ph

/-- The `scalar_one_or_none` lookup at the top of `StatusRepository.update`. -/
def findStatus (db : DB) (i : Nat) (ph : Phase) : Option StatusRow :=
  db.statuses.find? (statusMatches i ph)

/-- `StatusRepository.create`: insert a fresh row with `started_at = now` and
no completion data (app/repositories/status_repository.py, lines 29-65). -/
def statusCreate (db : DB) (now : Nat) (input_record_id : Nat) (phase : Phase)
    (status : PStatus) (progress : Nat) (pd : Option Dict)
    (em : Option String) (ed : Option Dict) : DB :=
  { db with
    statuses := db.statuses ++
      [⟨db.next_status_id, input_record_id, phase, status, progress,
        pd, em, ed, now, none, none⟩],
    next_status_id := db.next_status_id + 1 }

/-- The in-place overwrite performed by `StatusRepository.update` on an
existing row (lines 87-110): status and progress unconditionally; phase_data,
error_message and error_details only when truthy; on transition to completed,
set completed_at and derive the duration from the row's original started_at. -/
def applyRowUpdate (now : Nat) (status : PStatus) (progress : Nat)
    (pd : Option Dict) (em : Option String) (ed : Option Dict)
    (r : StatusRow) : StatusRow :=
  let r1 := { r with status := status, progress_percentage := progress }
  let r2 := if truthyDict pd then { r1 with phase_data := pd } else r1
  let r3 := if truthyStr em then { r2 with error_message := em } else r2
  let r4 := if truthyDict ed then { r3 with error_details := ed } else r3
  if status = PStatus.completed then
    { r4 with completed_at := some now,
              duration_seconds := some ((now : Int) - (r.started_at : Int)) }
  else r4

/-- `StatusRepository.update` (the ledger's `upsertPhase`): overwrite the
existing (record, phase) row in place, keyed by its primary id, or create a
new row when none exists. -/
def statusUpdate (db : DB) (now : Nat) (i : Nat) (ph : Phase)
    (status : PStatus) (progress : Nat) (pd : Option Dict)
    (em : Option String) (ed : Option Dict) : DB :=
  match findStatus db i ph with
  | some row =>
      { db with statuses := db.statuses.map fun r =>
          if r.id = row.id then applyRowUpdate now status progress pd em ed r
          else r }
  | none => statusCreate db now i ph status progress pd em ed

/-- The per-record overwrite of `InputRepository.update_status`: status always,
current_phase only when truthy, processed_at stamped on completion
(app/repositories/input_repository.py, lines 73-105). -/
def applyRecordStatusUpdate (now : Nat) (status : String)
    (current_phase : Option String) (r : InputRecord) : InputRecord :=
  let r1 := { r with status := status }
  let r2 := match current_phase with
    | some cp => if cp.isEmpty then r1 else { r1 with current_phase := cp }
    | none => r1
  if status = "completed" then { r2 with processed_at := some now } else r2

/-- `InputRepository.update_status`, applied to the matching record row. -/
def updateInputRecordStatus (db : DB) (now : Nat) (input_id : Nat)
    (status : String) (current_phase : Option String) : DB :=
  { db with records := db.records.map fun r =>
      if r.id = input_id then applyRecordStatusUpdate now status current_phase r
      else r }

/-- `InputRepository.update_language_detection`: persist the detected language
and its confidence onto the input record. -/
def updateLanguageDetectionResults (db : DB) (input_id : Nat) (lang : String)
    (conf : Rat) : DB :=
  { db with records := db.records.map fun r =>
      if r.id = input_id then
        { r with detected_language := some lang, language_confidence := some conf }
      else r }

/-- `InputRepository.update_translation_result`: persist the translation
payload onto the input record. -/
def updateTranslationResults (db : DB) (input_id : Nat) (payload : Dict) : DB :=
  { db with records := db.records.map fun r =>
      if r.id = input_id then { r with translation_result := some payload }
      else r }

/-- `InputStorageService._calculate_overall_progress`
(app/services/input_storage.py, lines 271-277): 0 for no phases, otherwise
the floored mean capped at 100. -/
def calculateOverallProgress (phases : List Nat) : Nat :=
  if phases.isEmpty then 0
  else min 100 (phases.sum / phases.length)

/-- Row selector for input records by primary id. -/
def recMatches (i : Nat) (r : InputRecord) : Bool :=
  r.id == i

/-- The status of the record with the given id, as a reader sees it. -/
def recordStatus (db : DB) (i : Nat) : Option String :=
  (db.records.find? (recMatches i)).map fun r => r.status

/-! ### Result cache (app/core/redis.py, CacheService) -/

/-- A fallible cache backend: each operation either returns or raises.  The
value type is the deserialized payload (serialization abstracted). -/
structure CacheBackend (α : Type) where
  get : String → Except String (Option α)
  set : String → α → Except String Bool

/-- `CacheService.get` (lines 59-65): any backend exception is swallowed and
reported as a miss. -/
def cacheServiceGet {α : Type} (b : CacheBackend α) (key : String) : Option α :=
  match b.get key with
  | Except.ok v => v
  | Except.error _ => none

/-- `CacheService.set` (lines 67-76): any backend exception is swallowed and
reported as the failure flag `false`. -/
def cacheServiceSet {α : Type} (b : CacheBackend α) (key : String) (v : α) :
    Bool :=
  match b.set key v with
  | Except.ok flag => flag
  | Except.error _ => false

/-! ### Language detection (app/services/language_detection.py) -/

/-- Result of one language-detection attempt (model `LanguageDetectionResult`;
alternative_languages omitted, never inspected by the pipeline). -/
structure LangResult where
  language : String
  confidence : Rat
  is_reliable : Bool
deriving DecidableEq, Repr

/-- The hardcoded fallback of `detect_language` (lines 111-120): default
language "en" with confidence 0.5, marked unreliable. -/
def defaultLangResult : LangResult :=
  { language := "en", confidence := 1/2, is_reliable := false }

/-- Outcomes of the three concrete detection attempts for one input text:
`_detect_with_langdetect`, `_detect_with_langid`,
`_detect_with_google_translate` (each opaque and fallible), plus whether a
Google API key is configured. -/
structure LangProviders where
  langdetect : Except String LangResult
  langid : Except String LangResult
  google_api_key : Bool
  google : Except String LangResult

/-- Cache key `"lang_detect:{hash(text)}"`; the fingerprint is modelled by the
text itself. -/
def langCacheKey (text : String) : String := "lang_detect:" ++ text

/-- One confidence-gated try-block of `detect_language`: an exception is
swallowed, a success is kept only when its confidence reaches the threshold;
otherwise control falls through to the next method. -/
def gateResult (threshold : Rat) (attempt : Except String LangResult) :
    Option LangResult :=
  match attempt with
  | Except.ok r => if r.confidence ≥ threshold then some r else none
  | Except.error _ => none

/-- `LanguageDetectionService.detect_language` (lines 36-120): cache lookup,
then langdetect and langid behind the confidence gate, then Google Translate
(no gate) when a key is configured, then the hardcoded default.  Cache writes
occur on the success paths; their return flags are discarded by the source,
and writing to the external store does not alter this call's result. -/
def detectLanguage (cache : CacheBackend LangResult) (threshold : Rat)
    (p : LangProviders) (text : String) : LangResult :=
  match cacheServiceGet cache (langCacheKey text) with
  | some cached => cached
  | none =>
    match gateResult threshold p.langdetect with
    | some r => r
    | none =>
      match gateResult threshold p.langid with
      | some r => r
      | none =>
        if p.google_api_key then
          match p.google with
          | Except.ok r => r
          | Except.error _ => defaultLangResult
        else defaultLangResult

/-! ### Translation fallback strategy (app/services/translation/strategy.py) -/

/-- Result of one translation attempt (model `TranslationResult`). -/
structure TransResult where
  original_text : String
  translated_text : String
  source_language : String
  target_language : String
  confidence : Rat
  method : String
deriving DecidableEq, Repr

/-- One configured provider in the fallback chain, with the outcomes of its
`is_available` and `translate` calls for the input at hand (both fallible:
either may raise). -/
structure Provider where
  name : String
  available : Except String Bool
  attempt : Except String TransResult

/-- Observable events of one resolution run, for stating which providers were
or were not attempted and in which order. -/
inductive PEvent where
  | skipped (name : String)
  | availError (name : String)
  | attempted (name : String)
deriving DecidableEq, Repr

/-- Rendering of Python `str(last_error)` where `last_error` starts as None. -/
def lastErrorString : Option String → String
  | none => "None"
  | some e => e

/-- Loop body of `translate_with_fallback` (lines 63-92): skip unavailable
providers, return the first successful attempt, swallow any provider exception
(remembering it as last_error) and continue; on exhaustion raise
`TranslationError` from the last error. -/
def translateWithFallbackGo : List Provider → Option String → List PEvent →
    Except String TransResult × List PEvent
  | [], lastError, trace =>
      (Except.error ("Translation failed: " ++ lastErrorString lastError), trace)
  | p :: rest, lastError, trace =>
      match p.available with
      | Except.error e =>
          translateWithFallbackGo rest (some e) (trace ++ [PEvent.availError p.name])
      | Except.ok false =>
          translateWithFallbackGo rest lastError (trace ++ [PEvent.skipped p.name])
      | Except.ok true =>
          match p.attempt with
          | Except.ok r => (Except.ok r, trace ++ [PEvent.attempted p.name])
          | Except.error e =>
              translateWithFallbackGo rest (some e) (trace ++ [PEvent.attempted p.name])

/-- `TranslationStrategy.translate_with_fallback`, instrumented with the
ordered event trace of provider interactions. -/
def translateWithFallback (providers : List Provider) :
    Except String TransResult × List PEvent :=
  translateWithFallbackGo providers none []

/-! ### Pipeline orchestrator (app/workflows/pipeline.py) -/

/-- Outcomes of the four collaborator calls the pipeline makes, as functions
of the arguments the pipeline passes them.  `validationOutcome` is
`validate_input(text).is_valid`; `detectOutcome` is `detect_language(text)`;
`translateOutcome text lang` is `translate_text(text, lang, "en")`;
`preprocessOutcome` is `preprocess_text(processed_text)` with its result
serialized to a payload.  Each is fallible: `Except.error` models a raised
exception reaching the pipeline.  Ledger writes are modelled as always
succeeding; persistence failure is outside the claims settled here. -/
structure PipelineEnv where
  validationOutcome : String → Except String Bool
  detectOutcome : String → Except String LangResult
  translateOutcome : String → String → Except String TransResult
  preprocessOutcome : String → Except String Dict

/-- Observable collaborator activity of one pipeline run. -/
structure PipelineTrace where
  translateCalls : Nat
  preprocessCalls : Nat
  preprocessInput : Option String
deriving DecidableEq, Repr

/-- Serialization of a language result into phase_data, abstracting
`{"language_result": language_result.dict()}`. -/
def langResultDict (lr : LangResult) : Dict :=
  [("language", lr.language)]

/-- Serialization of a translation result into phase_data, abstracting
`{"translation_result": translation_result.dict()}`. -/
def transResultDict (t : TransResult) : Dict :=
  [("original_text", t.original_text), ("translated_text", t.translated_text),
   ("source_language", t.source_language), ("target_language", t.target_language),
   ("method", t.method)]

/-- The catch-all `except Exception` handler of `process_input_pipeline`
(lines 155-174): write a failed status against the validation phase with the
stringified error, then mark the record failed with phase "pipeline_error". -/
def pipelineFail (db : DB) (now inputId : Nat) (e : String) : DB :=
  let db1 := statusUpdate db now inputId Phase.validation PStatus.failed 0
      none (some e) (some [("exception_type", "Exception")])
  updateInputRecordStatus db1 now inputId "failed" (some "pipeline_error")

/-- Phase 4 and finalization of `process_input_pipeline` (lines 132-151):
mark preprocessing as processing, run the normalizer on whichever text is
available, record completion, then mark the whole record completed. -/
def pipelinePreprocess (env : PipelineEnv) (now inputId : Nat)
    (processedText : String) (db : DB) (t : PipelineTrace) :
    DB × PipelineTrace :=
  let db := statusUpdate db now inputId Phase.preprocessing PStatus.processing 80
      none none none
  let t := { t with preprocessCalls := t.preprocessCalls + 1,
                    preprocessInput := some processedText }
  match env.preprocessOutcome processedText with
  | Except.error e => (pipelineFail db now inputId e, t)
  | Except.ok pr =>
    let db := statusUpdate db now inputId Phase.preprocessing PStatus.completed 100
        (some pr) none none
    (updateInputRecordStatus db now inputId "completed"
        (some "preprocessing_complete"), t)

/-- `process_input_pipeline` (app/workflows/pipeline.py, lines 21-174):
validation, language detection, translation when the detected language is not
"en" (otherwise a skipped status), preprocessing, finalization; any raised
collaborator exception lands in the catch-all handler `pipelineFail`. -/
def processInputPipeline (env : PipelineEnv) (now : Nat) (inputId : Nat)
    (text : String) (db : DB) : DB × PipelineTrace :=
  let t0 : PipelineTrace := ⟨0, 0, none⟩
  let db := statusUpdate db now inputId Phase.validation PStatus.processing 10
      none none none
  match env.validationOutcome text with
  | Except.error e => (pipelineFail db now inputId e, t0)
  | Except.ok isValid =>
    if !isValid then
      (statusUpdate db now inputId Phase.validation PStatus.failed 0
          none (some "Validation failed")
          (some [("validation_result", "invalid")]), t0)
    else
      let db := statusUpdate db now inputId Phase.validation PStatus.completed 25
          none none none
      let db := statusUpdate db now inputId Phase.language_detection
          PStatus.processing 30 none none none
      match env.detectOutcome text with
      | Except.error e => (pipelineFail db now inputId e, t0)
      | Except.ok lr =>
        let db := updateLanguageDetectionResults db inputId lr.language
            lr.confidence
        let db := statusUpdate db now inputId Phase.language_detection
            PStatus.completed 50 (some (langResultDict lr)) none none
        if lr.language ≠ "en" then
          let db := statusUpdate db now inputId Phase.translation
              PStatus.processing 60 none none none
          let t1 := { t0 with translateCalls := t0.translateCalls + 1 }
          match env.translateOutcome text lr.language with
          | Except.error e => (pipelineFail db now inputId e, t1)
          | Except.ok tr =>
            let processed := tr.translated_text
            let db := updateTranslationResults db inputId (transResultDict tr)
            let db := statusUpdate db now inputId Phase.translation
                PStatus.completed 75 (some (transResultDict tr)) none none
            pipelinePreprocess env now inputId processed db t1
        else
          let db := statusUpdate db now inputId Phase.translation
              PStatus.skipped 75
              (some [("reason", "Text is already in English")]) none none
          pipelinePreprocess env now inputId text db t0

/-! ### Concrete fixtures for counterexamples and witnesses -/

/-- A sample input record as intake creates it: status pending, phase
validation. -/
def cxRecord : InputRecord :=
  ⟨1, 7, "hola amigo", "pending", "validation", none, none, none, none⟩

/-- A database holding one pending record and no phase rows, the state in
which a pipeline run starts. -/
def cxDB : DB := ⟨[cxRecord], [], 0⟩

/-- A collaborator environment whose validator rejects every input. -/
def cxEnvInvalid : PipelineEnv :=
  ⟨fun _ => Except.ok false, fun _ => Except.ok ⟨"en", 1, true⟩,
   fun _ _ => Except.error "unused", fun _ => Except.ok []⟩

/-- A collaborator environment where validation passes, detection finds "hi",
and every translation attempt fails terminally. -/
def cxEnvTransFail : PipelineEnv :=
  ⟨fun _ => Except.ok true, fun _ => Except.ok ⟨"hi", 1, true⟩,
   fun _ _ => Except.error "Translation failed: all providers failed",
   fun _ => Except.ok [("processed", "ok")]⟩

/-- A collaborator environment for a fully successful English-input run. -/
def cxEnvEnglish : PipelineEnv :=
  ⟨fun _ => Except.ok true, fun _ => Except.ok ⟨"en", 1, true⟩,
   fun _ _ => Except.error "unused", fun _ => Except.ok [("processed", "ok")]⟩

/-- A cache backend that always misses on reads and accepts writes. -/
def emptyLangCache : CacheBackend LangResult :=
  ⟨fun _ => Except.ok none, fun _ _ => Except.ok true⟩

/-- A cache backend whose every operation raises. -/
def downLangCache : CacheBackend LangResult :=
  ⟨fun _ => Except.error "connection refused",
   fun _ _ => Except.error "connection refused"⟩

/-- A sample successful translation result with confidence 0.9. -/
def cxTransResult : TransResult :=
  ⟨"hola amigo", "hello friend", "hi", "en", 9/10, "google_translate"⟩

/-- Language-detection provider outcomes where every method fails. -/
def cxAllFailLang : LangProviders :=
  ⟨Except.error "langdetect failed", Except.error "langid failed", true,
   Except.error "google detection failed"⟩

/-- A translation provider chain in which no provider can produce a result:
one unavailable, one whose availability check raises, one whose attempt
raises. -/
def cxDeadProviders : List Provider :=
  [⟨"google", Except.ok false, Except.ok cxTransResult⟩,
   ⟨"indic", Except.error "availability check failed", Except.ok cxTransResult⟩,
   ⟨"nllb", Except.ok true, Except.error "model load failed"⟩]

/-- A stored phase row from an earlier failed translation attempt. -/
def cxFailedRow : StatusRow :=
  ⟨3, 1, Phase.translation, PStatus.failed, 0, none, some "old error",
   some [("exception_type", "Exception")], 100, none, none⟩

/-- A database whose only phase row is the stale failed translation row. -/
def cxDB10 : DB := ⟨[], [cxFailedRow], 5⟩

/-! ### Projection lemmas for the row-level overwrites -/

@[simp] theorem applyRowUpdate_id (now : Nat) (st : PStatus) (pr : Nat)
    (pd : Option Dict) (em : Option String) (ed : Option Dict) (r : StatusRow) :
    (applyRowUpdate now st pr pd em ed r).id = r.id := by
  simp only [applyRowUpdate]
  repeat' split
  all_goals rfl

@[simp] theorem applyRowUpdate_input_record_id (now : Nat) (st : PStatus)
    (pr : Nat) (pd : Option Dict) (em : Option String) (ed : Option Dict)
    (r : StatusRow) :
    (applyRowUpdate now st pr pd em ed r).input_record_id = r.input_record_id := by
  simp only [applyRowUpdate]
  repeat' split
  all_goals rfl

@[simp] theorem applyRowUpdate_phase (now : Nat) (st : PStatus) (pr : Nat)
    (pd : Option Dict) (em : Option String) (ed : Option Dict) (r : StatusRow) :
    (applyRowUpdate now st pr pd em ed r).phase = r.phase := by
  simp only [applyRowUpdate]
  repeat' split
  all_goals rfl

@[simp] theorem applyRowUpdate_status (now : Nat) (st : PStatus) (pr : Nat)
    (pd : Option Dict) (em : Option String) (ed : Option Dict) (r : StatusRow) :
    (applyRowUpdate now st pr pd em ed r).status = st := by
  simp only [applyRowUpdate]
  repeat' split
  all_goals rfl

@[simp] theorem applyRowUpdate_progress (now : Nat) (st : PStatus) (pr : Nat)
    (pd : Option Dict) (em : Option String) (ed : Option Dict) (r : StatusRow) :
    (applyRowUpdate now st pr pd em ed r).progress_percentage = pr := by
  simp only [applyRowUpdate]
  repeat' split
  all_goals rfl

@[simp] theorem applyRowUpdate_started_at (now : Nat) (st : PStatus) (pr : Nat)
    (pd : Option Dict) (em : Option String) (ed : Option Dict) (r : StatusRow) :
    (applyRowUpdate now st pr pd em ed r).started_at = r.started_at := by
  simp only [applyRowUpdate]
  repeat' split
  all_goals rfl

theorem applyRowUpdate_phase_data_truthy (now : Nat) (st : PStatus) (pr : Nat)
    (pd : Option Dict) (em : Option String) (ed : Option Dict) (r : StatusRow)
    (h : truthyDict pd = true) :
    (applyRowUpdate now st pr pd em ed r).phase_data = pd := by
  simp only [applyRowUpdate, h]
  repeat' split
  all_goals simp_all

theorem applyRowUpdate_phase_data_falsy (now : Nat) (st : PStatus) (pr : Nat)
    (pd : Option Dict) (em : Option String) (ed : Option Dict) (r : StatusRow)
    (h : truthyDict pd = false) :
    (applyRowUpdate now st pr pd em ed r).phase_data = r.phase_data := by
  simp only [applyRowUpdate, h]
  repeat' split
  all_goals simp_all

theorem applyRowUpdate_error_message_truthy (now : Nat) (st : PStatus) (pr : Nat)
    (pd : Option Dict) (em : Option String) (ed : Option Dict) (r : StatusRow)
    (h : truthyStr em = true) :
    (applyRowUpdate now st pr pd em ed r).error_message = em := by
  simp only [applyRowUpdate, h]
  repeat' split
  all_goals simp_all

theorem applyRowUpdate_error_message_falsy (now : Nat) (st : PStatus) (pr : Nat)
    (pd : Option Dict) (em : Option String) (ed : Option Dict) (r : StatusRow)
    (h : truthyStr em = false) :
    (applyRowUpdate now st pr pd em ed r).error_message = r.error_message := by
  simp only [applyRowUpdate, h]
  repeat' split
  all_goals simp_all

theorem applyRowUpdate_error_details_truthy (now : Nat) (st : PStatus) (pr : Nat)
    (pd : Option Dict) (em : Option String) (ed : Option Dict) (r : StatusRow)
    (h : truthyDict ed = true) :
    (applyRowUpdate now st pr pd em ed r).error_details = ed := by
  simp only [applyRowUpdate, h]
  repeat' split
  all_goals simp_all

theorem applyRowUpdate_error_details_falsy (now : Nat) (st : PStatus) (pr : Nat)
    (pd : Option Dict) (em : Option String) (ed : Option Dict) (r : StatusRow)
    (h : truthyDict ed = false) :
    (applyRowUpdate now st pr pd em ed r).error_details = r.error_details := by
  simp only [applyRowUpdate, h]
  repeat' split
  all_goals simp_all

theorem applyRowUpdate_completed_at_of_completed (now : Nat) (pr : Nat)
    (pd : Option Dict) (em : Option String) (ed : Option Dict) (r : StatusRow) :
    (applyRowUpdate now PStatus.completed pr pd em ed r).completed_at
      = some now := by
  simp only [applyRowUpdate]
  repeat' split
  all_goals simp_all

theorem applyRowUpdate_duration_of_completed (now : Nat) (pr : Nat)
    (pd : Option Dict) (em : Option String) (ed : Option Dict) (r : StatusRow) :
    (applyRowUpdate now PStatus.completed pr pd em ed r).duration_seconds
      = some ((now : Int) - (r.started_at : Int)) := by
  simp only [applyRowUpdate]
  repeat' split
  all_goals simp_all

@[simp] theorem applyRecordStatusUpdate_id (now : Nat) (st : String)
    (cp : Option String) (r : InputRecord) :
    (applyRecordStatusUpdate now st cp r).id = r.id := by
  simp only [applyRecordStatusUpdate]
  repeat' split
  all_goals rfl

@[simp] theorem applyRecordStatusUpdate_status (now : Nat) (st : String)
    (cp : Option String) (r : InputRecord) :
    (applyRecordStatusUpdate now st cp r).status = st := by
  simp only [applyRecordStatusUpdate]
  repeat' split
  all_goals rfl

/-! ### List-level helper lemmas -/

theorem map_id_of_fixed {α : Type} (g : α → α) (l : List α)
    (h : ∀ r ∈ l, g r = r) : l.map g = l := by
  induction l with
  | nil => rfl
  | cons a t ih =>
    rw [List.map_cons, h a (List.mem_cons_self a t),
      ih fun r hr => h r (List.mem_cons_of_mem a hr)]

theorem find?_map_by_id (p : StatusRow → Bool) (upd : StatusRow → StatusRow)
    (l : List StatusRow) (row : StatusRow)
    (hpw : l.Pairwise fun a b => a.id ≠ b.id)
    (hfind : l.find? p = some row)
    (hpu : p (upd row) = true) :
    (l.map fun r => if r.id = row.id then upd r else r).find? p
      = some (upd row) := by
  induction l with
  | nil => simp at hfind
  | cons a t ih =>
    rcases List.pairwise_cons.mp hpw with ⟨hah, hpt⟩
    cases hpa : p a with
    | true =>
      rw [List.find?_cons_of_pos _ hpa] at hfind
      injection hfind with he
      subst he
      rw [List.map_cons, if_pos rfl, List.find?_cons_of_pos _ hpu]
    | false =>
      rw [List.find?_cons_of_neg _ (by simp [hpa])] at hfind
      have hmem : row ∈ t := List.mem_of_find?_eq_some hfind
      have hne : a.id ≠ row.id := hah row hmem
      rw [List.map_cons, if_neg hne,
        List.find?_cons_of_neg _ (by simp [hpa])]
      exact ih hpt hfind

theorem find?_map_status_preserved (i : Nat) (g : InputRecord → InputRecord)
    (hid : ∀ r, (g r).id = r.id) (hst : ∀ r, (g r).status = r.status)
    (l : List InputRecord) :
    ((l.map g).find? (recMatches i)).map (fun r => r.status)
      = (l.find? (recMatches i)).map fun r => r.status := by
  induction l with
  | nil => rfl
  | cons a t ih =>
    rw [List.map_cons]
    cases h : recMatches i a with
    | true =>
      rw [List.find?_cons_of_pos _ (by simp only [recMatches, hid]; exact h),
        List.find?_cons_of_pos _ h]
      simp [hst]
    | false =>
      have hb : (a.id == i) = false := by simpa [recMatches] using h
      rw [List.find?_cons_of_neg _ (by simp [recMatches, hid, hb]),
        List.find?_cons_of_neg _ (by simp [recMatches, hb])]
      exact ih

theorem find?_map_set_status (i : Nat) (st : String)
    (g : InputRecord → InputRecord)
    (hid : ∀ r, (g r).id = r.id) (hst : ∀ r, r.id = i → (g r).status = st)
    (l : List InputRecord) (h : (l.find? (recMatches i)).isSome) :
    ((l.map g).find? (recMatches i)).map (fun r => r.status) = some st := by
  induction l with
  | nil => simp at h
  | cons a t ih =>
    rw [List.map_cons]
    cases hpa : recMatches i a with
    | true =>
      rw [List.find?_cons_of_pos _ (by simp only [recMatches, hid]; exact hpa)]
      have hz : a.id = i := by simpa [recMatches] using hpa
      simp [hst a hz]
    | false =>
      have hb : (a.id == i) = false := by simpa [recMatches] using hpa
      rw [List.find?_cons_of_neg _ (by simp [recMatches, hid, hb])]
      rw [List.find?_cons_of_neg _ (by simp [recMatches, hb])] at h
      exact ih h

theorem list_sum_le_mul (l : List Nat) (c : Nat) (h : ∀ x ∈ l, x ≤ c) :
    l.sum ≤ c * l.length := by
  induction l with
  | nil => simp
  | cons a t ih =>
    simp only [List.sum_cons, List.length_cons]
    calc a + t.sum ≤ c + c * t.length :=
          Nat.add_le_add (h a (List.mem_cons_self a t))
            (ih fun x hx => h x (List.mem_cons_of_mem a hx))
      _ = c * (t.length + 1) := by ring

/-! ### Record-status preservation lemmas -/

theorem recordStatus_statusUpdate (db : DB) (now i : Nat) (ph : Phase)
    (st : PStatus) (pr : Nat) (pd : Option Dict) (em : Option String)
    (ed : Option Dict) (j : Nat) :
    recordStatus (statusUpdate db now i ph st pr pd em ed) j
      = recordStatus db j := by
  unfold statusUpdate
  cases h : findStatus db i ph <;> rfl

theorem recordStatus_updateLang (db : DB) (i : Nat) (lang : String) (c : Rat)
    (j : Nat) :
    recordStatus (updateLanguageDetectionResults db i lang c) j
      = recordStatus db j := by
  unfold recordStatus updateLanguageDetectionResults
  exact find?_map_status_preserved j _
    (fun r => by split <;> rfl)
    (fun r => by split <;> rfl) db.records

theorem recordStatus_updateTrans (db : DB) (i : Nat) (payload : Dict)
    (j : Nat) :
    recordStatus (updateTranslationResults db i payload) j
      = recordStatus db j := by
  unfold recordStatus updateTranslationResults
  exact find?_map_status_preserved j _
    (fun r => by split <;> rfl)
    (fun r => by split <;> rfl) db.records

theorem recordStatus_finalize (db : DB) (now i : Nat) (st : String)
    (cp : Option String) (h : (recordStatus db i).isSome) :
    recordStatus (updateInputRecordStatus db now i st cp) i = some st := by
  unfold recordStatus updateInputRecordStatus
  refine find?_map_set_status i st _
    (fun r => by split <;> simp)
    (fun r hr => by rw [if_pos hr]; simp)
    db.records ?_
  simpa [recordStatus] using h

/-! ### Exhaustion lemma for the translation fallback chain -/

theorem translateWithFallbackGo_exhausted (ps : List Provider)
    (hall : ∀ q ∈ ps, q.available = Except.ok false ∨
      (∃ e, q.available = Except.error e) ∨ (∃ e, q.attempt = Except.error e)) :
    ∀ le tr, ∃ msg, (translateWithFallbackGo ps le tr).1 = Except.error msg := by
  induction ps with
  | nil => intro le tr; exact ⟨_, rfl⟩
  | cons q rest ih =>
    intro le tr
    have hrest := fun x hx => hall x (List.mem_cons_of_mem q hx)
    rcases hall q (List.mem_cons_self q rest) with hav | ⟨e, hav⟩ | ⟨e, hat⟩
    · simp only [translateWithFallbackGo, hav]
      exact ih hrest _ _
    · simp only [translateWithFallbackGo, hav]
      exact ih hrest _ _
    · cases hav2 : q.available with
      | error e2 =>
        simp only [translateWithFallbackGo, hav2]
        exact ih hrest _ _
      | ok b =>
        cases b with
        | false =>
          simp only [translateWithFallbackGo, hav2]
          exact ih hrest _ _
        | true =>
          simp only [translateWithFallbackGo, hav2, hat]
          exact ih hrest _ _

/-! ### Claim theorems -/

/-- C3: for a fallback resolution over the provider list [A(unavailable),
B(raises), C(succeeds with confidence 0.9)], the resolution returns C's
result; A is skipped without being attempted, B's exception is swallowed
inside the engine (the call returns a success to the caller), and the
providers are tried strictly in list order, as the event trace shows. -/
theorem c3_fallback_order_and_swallow (nA nB nC : String)
    (aA : Except String TransResult) (eB : String) (rC : TransResult)
    (hc : rC.confidence = 9/10) :
    translateWithFallback
        [⟨nA, Except.ok false, aA⟩, ⟨nB, Except.ok true, Except.error eB⟩,
         ⟨nC, Except.ok true, Except.ok rC⟩]
      = (Except.ok rC,
         [PEvent.skipped nA, PEvent.attempted nB, PEvent.attempted nC]) := by
  simp [translateWithFallback, translateWithFallbackGo]

/-- Witness for C3 at a concrete provider chain. -/
theorem c3_fallback_order_and_swallow_witness :
    translateWithFallback
        [⟨"google", Except.ok false, Except.error "skipped"⟩,
         ⟨"indic", Except.ok true, Except.error "model crashed"⟩,
         ⟨"nllb", Except.ok true, Except.ok cxTransResult⟩]
      = (Except.ok cxTransResult,
         [PEvent.skipped "google", PEvent.attempted "indic",
          PEvent.attempted "nllb"]) :=
  c3_fallback_order_and_swallow "google" "indic" "nllb"
    (Except.error "skipped") "model crashed" cxTransResult rfl

/-- C5: when every provider is unavailable or fails, language detection never
raises and returns the hardcoded default ("en", confidence 0.5, unreliable),
whereas the translation fallback raises a terminal TranslationError instead of
fabricating a result. -/
theorem c5_exhaustion_default_vs_error (cache : CacheBackend LangResult)
    (text : String) (thr : Rat) (p : LangProviders) (ps : List Provider)
    (hmiss : cacheServiceGet cache (langCacheKey text) = none)
    (h1 : ∃ e, p.langdetect = Except.error e)
    (h2 : ∃ e, p.langid = Except.error e)
    (h3 : ∃ e, p.google = Except.error e)
    (hall : ∀ q ∈ ps, q.available = Except.ok false ∨
      (∃ e, q.available = Except.error e) ∨
      (∃ e, q.attempt = Except.error e)) :
    detectLanguage cache thr p text = defaultLangResult ∧
    ∃ msg, (translateWithFallback ps).1 = Except.error msg := by
  obtain ⟨e1, he1⟩ := h1
  obtain ⟨e2, he2⟩ := h2
  obtain ⟨e3, he3⟩ := h3
  constructor
  · unfold detectLanguage
    rw [hmiss]
    cases hk : p.google_api_key <;> simp [gateResult, he1, he2, he3, hk]
  · exact translateWithFallbackGo_exhausted ps hall none []

/-- Witness for C5 at a concrete all-failing configuration. -/
theorem c5_exhaustion_default_vs_error_witness :
    detectLanguage emptyLangCache (4/5) cxAllFailLang "todo el mundo"
      = defaultLangResult ∧
    ∃ msg, (translateWithFallback cxDeadProviders).1 = Except.error msg :=
  c5_exhaustion_default_vs_error emptyLangCache "todo el mundo" (4/5)
    cxAllFailLang cxDeadProviders rfl ⟨_, rfl⟩ ⟨_, rfl⟩ ⟨_, rfl⟩
    (by
      intro q hq
      simp only [cxDeadProviders, List.mem_cons, List.not_mem_nil,
        or_false] at hq
      rcases hq with h | h | h
      · subst h; left; rfl
      · subst h; right; left; exact ⟨"availability check failed", rfl⟩
      · subst h; right; right; exact ⟨"model load failed", rfl⟩)

/-- C7: overallProgress equals the floored arithmetic mean of the per-phase
progress values (given each is at most 100, as the data model guarantees), is
0 for a record with no phase rows, and equals 37 for [25, 50]. -/
theorem c7_overall_progress_floored_mean (l : List Nat) (hne : l ≠ [])
    (hb : ∀ x ∈ l, x ≤ 100) :
    calculateOverallProgress [] = 0 ∧
    calculateOverallProgress l = l.sum / l.length ∧
    calculateOverallProgress [25, 50] = 37 := by
  refine ⟨rfl, ?_, by decide⟩
  unfold calculateOverallProgress
  rw [if_neg (by simpa using hne)]
  have hlen : 0 < l.length := List.length_pos.mpr hne
  have hdiv : l.sum / l.length ≤ 100 := by
    calc l.sum / l.length ≤ (100 * l.length) / l.length :=
          Nat.div_le_div_right (list_sum_le_mul l 100 hb)
      _ = 100 := Nat.mul_div_cancel _ hlen
  exact Nat.min_eq_right hdiv

/-- Witness for C7 at the phase list [25, 50]. -/
theorem c7_overall_progress_floored_mean_witness :
    calculateOverallProgress [] = 0 ∧
    calculateOverallProgress [25, 50] = [25, 50].sum / [25, 50].length ∧
    calculateOverallProgress [25, 50] = 37 :=
  c7_overall_progress_floored_mean [25, 50] (by decide) (by decide)

/-- C9: cache failures never propagate: a failing backend read is reported as
a miss and a failing backend write as the failure flag, with no exception
escaping CacheService, and the result of a cache-wrapped resolution is the
same under any cache whose lookup yields a miss, so cache errors never change
the computed result. -/
theorem c9_cache_failure_swallowed {α : Type} (b : CacheBackend α) (k : String)
    (v : α) (e1 e2 : String) (b1 b2 : CacheBackend LangResult) (thr : Rat)
    (p : LangProviders) (text : String)
    (hg : b.get k = Except.error e1) (hs : b.set k v = Except.error e2)
    (m1 : cacheServiceGet b1 (langCacheKey text) = none)
    (m2 : cacheServiceGet b2 (langCacheKey text) = none) :
    cacheServiceGet b k = none ∧ cacheServiceSet b k v = false ∧
    detectLanguage b1 thr p text = detectLanguage b2 thr p text := by
  refine ⟨?_, ?_, ?_⟩
  · simp [cacheServiceGet, hg]
  · simp [cacheServiceSet, hs]
  · unfold detectLanguage
    rw [m1, m2]

/-- Witness for C9: a dead cache backend versus a healthy empty one. -/
theorem c9_cache_failure_swallowed_witness :
    cacheServiceGet downLangCache "lang_detect:x" = none ∧
    cacheServiceSet downLangCache "lang_detect:x" defaultLangResult = false ∧
    detectLanguage downLangCache (4/5) cxAllFailLang "todo el mundo"
      = detectLanguage emptyLangCache (4/5) cxAllFailLang "todo el mundo" :=
  c9_cache_failure_swallowed downLangCache "lang_detect:x" defaultLangResult
    "connection refused" "connection refused" downLangCache emptyLangCache
    (4/5) cxAllFailLang "todo el mundo" rfl rfl rfl rfl

/-- C4 counterexample: the claim predicts that providers [A(confidence 0.3),
B(confidence 0.5)] with threshold 0.8 in language-detection mode yield B's 0.5
result, not the default language.  In the code, with langdetect returning
("fr", 0.3) and langid (provider B) returning ("de", 0.5) and no Google key,
detection returns the hardcoded default ("en", 0.5, unreliable): the
sub-threshold results are discarded, not remembered as best-so-far, and the
default language is returned, contradicting the claim. -/
theorem c4_counterexample :
    detectLanguage emptyLangCache (4/5)
        ⟨Except.ok ⟨"fr", 3/10, false⟩, Except.ok ⟨"de", 1/2, false⟩, false,
         Except.error "no key"⟩ "bonjour tout le monde"
      = defaultLangResult ∧
    defaultLangResult.language = "en" ∧ ("en" : String) ≠ "de" := by
  refine ⟨?_, rfl, by decide⟩
  unfold detectLanguage cacheServiceGet emptyLangCache
  simp only [gateResult]
  rw [if_neg (by norm_num), if_neg (by norm_num)]
  simp

/-- C4 amended: in language detection a provider success with confidence at or
above the threshold is returned immediately and no later provider is
consulted; a sub-threshold success is discarded rather than remembered as a
best-so-far, and on exhaustion the hardcoded default ("en", 0.5, unreliable)
is returned — for [A(below), B(below)] the result is the default, not B's —
while translation resolution applies no confidence gate at all: the first
available success is returned whatever its confidence. -/
theorem c4_threshold_gate_and_default (cache : CacheBackend LangResult)
    (text : String) (thr : Rat) (r r1 r2 : LangResult)
    (li go go2 : Except String LangResult) (key : Bool)
    (tname : String) (rest : List Provider) (rT : TransResult)
    (hmiss : cacheServiceGet cache (langCacheKey text) = none)
    (hge : r.confidence ≥ thr)
    (hlt1 : r1.confidence < thr) (hlt2 : r2.confidence < thr) :
    detectLanguage cache thr ⟨Except.ok r, li, key, go⟩ text = r ∧
    detectLanguage cache thr ⟨Except.ok r1, Except.ok r2, false, go2⟩ text
      = defaultLangResult ∧
    (translateWithFallback (⟨tname, Except.ok true, Except.ok rT⟩ :: rest)).1
      = Except.ok rT := by
  refine ⟨?_, ?_, ?_⟩
  · unfold detectLanguage
    rw [hmiss]
    simp [gateResult, hge]
  · unfold detectLanguage
    rw [hmiss]
    simp [gateResult, not_le.mpr hlt1, not_le.mpr hlt2]
  · simp [translateWithFallback, translateWithFallbackGo]

/-- Witness for the amended C4 at concrete confidences 0.9, 0.3, 0.5 against
threshold 0.8. -/
theorem c4_threshold_gate_and_default_witness :
    detectLanguage emptyLangCache (4/5)
        ⟨Except.ok ⟨"en", 9/10, true⟩, Except.error "unused", true,
         Except.error "unused"⟩ "hello there" = ⟨"en", 9/10, true⟩ ∧
    detectLanguage emptyLangCache (4/5)
        ⟨Except.ok ⟨"fr", 3/10, false⟩, Except.ok ⟨"de", 1/2, false⟩, false,
         Except.error "no key"⟩ "hello there" = defaultLangResult ∧
    (translateWithFallback
        (⟨"google", Except.ok true, Except.ok cxTransResult⟩ :: [])).1
      = Except.ok cxTransResult :=
  c4_threshold_gate_and_default emptyLangCache "hello there" (4/5)
    ⟨"en", 9/10, true⟩ ⟨"fr", 3/10, false⟩ ⟨"de", 1/2, false⟩
    (Except.error "unused") (Except.error "unused") (Except.error "no key")
    true "google" [] cxTransResult rfl (by norm_num) (by norm_num) (by norm_num)

/-- C6: calling upsertPhase twice for the same (record, phase), the second
call completing the phase, leaves exactly one PhaseStatus row for that pair —
the second call overwrites in place instead of inserting — and the stored
duration equals the final completed_at minus the row's original started_at. -/
theorem c6_upsert_idempotent_duration (db : DB) (i : Nat) (ph : Phase)
    (n1 n2 : Nat) (st1 : PStatus) (p1 p2 : Nat)
    (pd1 pd2 : Option Dict) (em1 em2 : Option String) (ed1 ed2 : Option Dict)
    (hnone : db.statuses.filter (statusMatches i ph) = [])
    (hids : ∀ r ∈ db.statuses, r.id < db.next_status_id) :
    ∃ r, (statusUpdate (statusUpdate db n1 i ph st1 p1 pd1 em1 ed1) n2 i ph
          PStatus.completed p2 pd2 em2 ed2).statuses.filter
        (statusMatches i ph) = [r] ∧
      r.status = PStatus.completed ∧ r.progress_percentage = p2 ∧
      r.started_at = n1 ∧ r.completed_at = some n2 ∧
      r.duration_seconds = some ((n2 : Int) - (n1 : Int)) := by
  have hmatch : ∀ x ∈ db.statuses, ¬ statusMatches i ph x = true :=
    List.filter_eq_nil_iff.mp hnone
  have hfind : findStatus db i ph = none := List.find?_eq_none.mpr hmatch
  set newRow : StatusRow :=
    ⟨db.next_status_id, i, ph, st1, p1, pd1, em1, ed1, n1, none, none⟩ with hnew
  have hsm : statusMatches i ph newRow = true := by simp [statusMatches, hnew]
  set db1 := statusUpdate db n1 i ph st1 p1 pd1 em1 ed1 with hdb1def
  have hdb1 : db1.statuses = db.statuses ++ [newRow] := by
    simp [hdb1def, statusUpdate, hfind, statusCreate, hnew]
  have hfind1 : findStatus db1 i ph = some newRow := by
    unfold findStatus
    rw [hdb1, List.find?_append, List.find?_eq_none.mpr hmatch,
      List.find?_cons_of_pos _ hsm, Option.none_or]
  have hdb2 : (statusUpdate db1 n2 i ph PStatus.completed p2 pd2 em2 ed2).statuses
      = db1.statuses.map fun r =>
          if r.id = newRow.id then
            applyRowUpdate n2 PStatus.completed p2 pd2 em2 ed2 r
          else r := by
    rw [statusUpdate, hfind1]
  refine ⟨applyRowUpdate n2 PStatus.completed p2 pd2 em2 ed2 newRow,
    ?g1, ?g2, ?g3, ?g4, ?g5, ?g6⟩
  case g2 => simp
  case g3 => simp
  case g4 => simp [hnew]
  case g5 => rw [applyRowUpdate_completed_at_of_completed]
  case g6 => rw [applyRowUpdate_duration_of_completed]
  case g1 =>
    rw [hdb2, hdb1, List.map_append]
    rw [map_id_of_fixed _ db.statuses fun r hr => by
      have hne : r.id ≠ newRow.id := Nat.ne_of_lt (hids r hr)
      simp [hne]]
    rw [List.filter_append, hnone]
    simp [statusMatches, hnew]

/-- Witness for C6: phase entered at time 100, completed at time 160, on an
empty ledger. -/
theorem c6_upsert_idempotent_duration_witness :
    ∃ r, (statusUpdate (statusUpdate ⟨[], [], 0⟩ 100 1 Phase.validation
          PStatus.processing 10 none none none) 160 1 Phase.validation
          PStatus.completed 25 none none none).statuses.filter
        (statusMatches 1 Phase.validation) = [r] ∧
      r.status = PStatus.completed ∧ r.progress_percentage = 25 ∧
      r.started_at = 100 ∧ r.completed_at = some 160 ∧
      r.duration_seconds = some ((160 : Int) - (100 : Int)) :=
  c6_upsert_idempotent_duration ⟨[], [], 0⟩ 1 Phase.validation 100 160
    PStatus.processing 10 25 none none none none none none rfl
    (fun r hr => absurd hr (List.not_mem_nil r))

/-- C10: when upsertPhase overwrites an existing (record, phase) row, status
and progress_percentage are overwritten unconditionally, while falsy
phase_data, error_message and error_details arguments leave the previously
stored values of those fields unchanged — re-entering a failed phase as
processing keeps the stale error on the row. -/
theorem c10_upsert_frame (db : DB) (i : Nat) (ph : Phase) (now : Nat)
    (st : PStatus) (pr : Nat) (pd : Option Dict) (em : Option String)
    (ed : Option Dict) (row : StatusRow)
    (hpw : db.statuses.Pairwise fun a b => a.id ≠ b.id)
    (hfind : findStatus db i ph = some row)
    (hpd : truthyDict pd = false) (hem : truthyStr em = false)
    (hed : truthyDict ed = false) :
    ∃ r2, findStatus (statusUpdate db now i ph st pr pd em ed) i ph
        = some r2 ∧
      r2.status = st ∧ r2.progress_percentage = pr ∧
      r2.phase_data = row.phase_data ∧
      r2.error_message = row.error_message ∧
      r2.error_details = row.error_details := by
  have hprow : statusMatches i ph row = true := List.find?_some hfind
  have hpu : statusMatches i ph (applyRowUpdate now st pr pd em ed row)
      = true := by
    simp only [statusMatches] at hprow ⊢
    simpa using hprow
  refine ⟨applyRowUpdate now st pr pd em ed row, ?f1, ?f2, ?f3, ?f4, ?f5, ?f6⟩
  case f1 =>
    unfold findStatus at hfind ⊢
    rw [statusUpdate]
    unfold findStatus
    rw [hfind]
    exact find?_map_by_id _ _ _ _ hpw hfind hpu
  case f2 => simp
  case f3 => simp
  case f4 => exact applyRowUpdate_phase_data_falsy _ _ _ _ _ _ _ hpd
  case f5 => exact applyRowUpdate_error_message_falsy _ _ _ _ _ _ _ hem
  case f6 => exact applyRowUpdate_error_details_falsy _ _ _ _ _ _ _ hed

/-- Witness for C10: re-entering the stale failed translation row as
processing at 60 with no payload or error arguments keeps the old error. -/
theorem c10_upsert_frame_witness :
    ∃ r2, findStatus (statusUpdate cxDB10 200 1 Phase.translation
        PStatus.processing 60 none none none) 1 Phase.translation = some r2 ∧
      r2.status = PStatus.processing ∧ r2.progress_percentage = 60 ∧
      r2.phase_data = cxFailedRow.phase_data ∧
      r2.error_message = cxFailedRow.error_message ∧
      r2.error_details = cxFailedRow.error_details :=
  c10_upsert_frame cxDB10 1 Phase.translation 200 PStatus.processing 60
    none none none cxFailedRow (by simp [cxDB10]) (by decide) rfl rfl rfl

/-- C1 counterexample: the claim predicts that a terminal translation error is
recorded as PhaseStatus(translation, failed, 75) and that preprocessing still
runs.  In the code the exception escapes to the catch-all handler: on a
concrete run whose translation raises, the translation row is left at
(processing, 60) — not (failed, 75) — no preprocessing row exists, the
normalizer is never called, and the record is finalized failed, so the
pipeline does abort. -/
theorem c1_counterexample :
    ((findStatus (processInputPipeline cxEnvTransFail 5 1 "hola amigo" cxDB).1
        1 Phase.translation).map fun r => (r.status, r.progress_percentage))
      = some (PStatus.processing, 60) ∧
    some ((PStatus.processing : PStatus), (60 : Nat))
      ≠ some (PStatus.failed, 75) ∧
    findStatus (processInputPipeline cxEnvTransFail 5 1 "hola amigo" cxDB).1
      1 Phase.preprocessing = none ∧
    (processInputPipeline cxEnvTransFail 5 1 "hola amigo" cxDB).2.preprocessCalls
      = 0 ∧
    recordStatus (processInputPipeline cxEnvTransFail 5 1 "hola amigo" cxDB).1 1
      = some "failed" := by
  decide

/-- C1 amended: when the translation phase raises a terminal error, the
Orchestrator's catch-all handler records the failure against the validation
phase at progress 0 (not the translation phase at 75), leaves the translation
row at (processing, 60), never runs preprocessing, and finalizes the record
failed — the pipeline aborts instead of continuing on the original text. -/
theorem c1_translation_error_aborts_pipeline (env : PipelineEnv) (now i : Nat)
    (text : String) (recs : List InputRecord) (lr : LangResult) (e s0 : String)
    (hv : env.validationOutcome text = Except.ok true)
    (hd : env.detectOutcome text = Except.ok lr)
    (hne : lr.language ≠ "en")
    (ht : env.translateOutcome text lr.language = Except.error e)
    (hee : e ≠ "")
    (h0 : recordStatus ⟨recs, [], 0⟩ i = some s0) :
    ((findStatus (processInputPipeline env now i text ⟨recs, [], 0⟩).1 i
        Phase.translation).map fun r => (r.status, r.progress_percentage))
      = some (PStatus.processing, 60) ∧
    findStatus (processInputPipeline env now i text ⟨recs, [], 0⟩).1 i
      Phase.preprocessing = none ∧
    (processInputPipeline env now i text ⟨recs, [], 0⟩).2.preprocessCalls
      = 0 ∧
    ((findStatus (processInputPipeline env now i text ⟨recs, [], 0⟩).1 i
        Phase.validation).map fun r =>
          (r.status, r.progress_percentage, r.error_message))
      = some (PStatus.failed, 0, some e) ∧
    recordStatus (processInputPipeline env now i text ⟨recs, [], 0⟩).1 i
      = some "failed" := by
  have h1 : e.isEmpty = false := by
    cases h : e.isEmpty with
    | false => rfl
    | true => exact absurd ((String.isEmpty_iff e).mp h) hee
  have hE : truthyStr (some e) = true := by simp [truthyStr, h1]
  have habcd :
      ((findStatus (processInputPipeline env now i text ⟨recs, [], 0⟩).1 i
          Phase.translation).map fun r => (r.status, r.progress_percentage))
        = some (PStatus.processing, 60) ∧
      findStatus (processInputPipeline env now i text ⟨recs, [], 0⟩).1 i
        Phase.preprocessing = none ∧
      (processInputPipeline env now i text ⟨recs, [], 0⟩).2.preprocessCalls
        = 0 ∧
      ((findStatus (processInputPipeline env now i text ⟨recs, [], 0⟩).1 i
          Phase.validation).map fun r =>
            (r.status, r.progress_percentage, r.error_message))
        = some (PStatus.failed, 0, some e) := by
    simp [processInputPipeline, pipelineFail, hv, hd, hne, ht, hE, statusUpdate,
      findStatus, statusCreate, statusMatches, updateLanguageDetectionResults,
      updateInputRecordStatus, truthyDict, truthyStr, langResultDict,
      applyRowUpdate_phase_data_truthy,
      applyRowUpdate_error_message_truthy _ _ _ _ _ _ _ hE,
      applyRowUpdate_error_details_truthy]
  refine ⟨habcd.1, habcd.2.1, habcd.2.2.1, habcd.2.2.2, ?_⟩
  simp only [processInputPipeline, pipelineFail, hv, hd, ht, Bool.not_true,
    Bool.false_eq_true, if_false, ne_eq, hne, not_false_eq_true, if_true]
  rw [recordStatus_finalize]
  simp [recordStatus_statusUpdate, recordStatus_updateLang, h0]

/-- Witness for the amended C1 at a concrete failing-translation run. -/
theorem c1_translation_error_aborts_pipeline_witness :
    ((findStatus (processInputPipeline cxEnvTransFail 5 1 "hola amigo"
        ⟨[cxRecord], [], 0⟩).1 1 Phase.translation).map fun r =>
          (r.status, r.progress_percentage)) = some (PStatus.processing, 60) ∧
    findStatus (processInputPipeline cxEnvTransFail 5 1 "hola amigo"
      ⟨[cxRecord], [], 0⟩).1 1 Phase.preprocessing = none ∧
    (processInputPipeline cxEnvTransFail 5 1 "hola amigo"
      ⟨[cxRecord], [], 0⟩).2.preprocessCalls = 0 ∧
    ((findStatus (processInputPipeline cxEnvTransFail 5 1 "hola amigo"
        ⟨[cxRecord], [], 0⟩).1 1 Phase.validation).map fun r =>
          (r.status, r.progress_percentage, r.error_message))
      = some (PStatus.failed, 0,
          some "Translation failed: all providers failed") ∧
    recordStatus (processInputPipeline cxEnvTransFail 5 1 "hola amigo"
      ⟨[cxRecord], [], 0⟩).1 1 = some "failed" :=
  c1_translation_error_aborts_pipeline cxEnvTransFail 5 1 "hola amigo"
    [cxRecord] ⟨"hi", 1, true⟩ "Translation failed: all providers failed"
    "pending" rfl rfl (by decide) rfl (by decide) rfl

/-- C2 counterexample: the claim predicts that after every terminating run the
ContentRecord status is completed or failed, the invalid-input branch writing
finalize(failed).  On a concrete invalid input, the run stops after the failed
validation PhaseStatus and the record is still "pending": no finalize write
happens in that branch. -/
theorem c2_counterexample :
    recordStatus (processInputPipeline cxEnvInvalid 5 1 "hola amigo" cxDB).1 1
      = some "pending" ∧
    some ("pending" : String) ≠ some "completed" ∧
    some ("pending" : String) ≠ some "failed" := by
  decide

/-- C2 amended: when validation rejects the input the run leaves the
ContentRecord status unchanged (no finalize write happens in that branch);
in every other terminating run — all phases succeed, or a collaborator
raises — the final status is completed or failed. -/
theorem c2_record_status_after_run (env : PipelineEnv) (now i : Nat)
    (text : String) (db : DB) (s0 : String)
    (h0 : recordStatus db i = some s0) :
    (env.validationOutcome text = Except.ok false →
      recordStatus (processInputPipeline env now i text db).1 i = some s0) ∧
    (env.validationOutcome text ≠ Except.ok false →
      recordStatus (processInputPipeline env now i text db).1 i
          = some "completed" ∨
      recordStatus (processInputPipeline env now i text db).1 i
          = some "failed") := by
  constructor
  · intro hv
    simp [processInputPipeline, hv, recordStatus_statusUpdate, h0]
  · intro hnv
    cases hv : env.validationOutcome text with
    | error e =>
      right
      simp only [processInputPipeline, hv, pipelineFail]
      rw [recordStatus_finalize]
      simp [recordStatus_statusUpdate, h0]
    | ok b =>
      cases b with
      | false => exact absurd hv hnv
      | true =>
        cases hd : env.detectOutcome text with
        | error e =>
          right
          simp only [processInputPipeline, hv, hd, pipelineFail,
            Bool.not_true, Bool.false_eq_true, if_false]
          rw [recordStatus_finalize]
          simp [recordStatus_statusUpdate, h0]
        | ok lr =>
          by_cases hl : lr.language = "en"
          · cases hp : env.preprocessOutcome text with
            | ok pr =>
              left
              simp only [processInputPipeline, pipelinePreprocess, hv, hd, hl,
                hp, Bool.not_true, Bool.false_eq_true, if_false, ne_eq,
                not_true_eq_false]
              rw [recordStatus_finalize]
              simp [recordStatus_statusUpdate, recordStatus_updateLang, h0]
            | error e2 =>
              right
              simp only [processInputPipeline, pipelinePreprocess, pipelineFail,
                hv, hd, hl, hp, Bool.not_true, Bool.false_eq_true, if_false,
                ne_eq, not_true_eq_false]
              rw [recordStatus_finalize]
              simp [recordStatus_statusUpdate, recordStatus_updateLang, h0]
          · cases htr : env.translateOutcome text lr.language with
            | error e2 =>
              right
              simp only [processInputPipeline, pipelineFail, hv, hd, htr,
                Bool.not_true, Bool.false_eq_true, if_false, ne_eq, hl,
                not_false_eq_true, if_true]
              rw [recordStatus_finalize]
              simp [recordStatus_statusUpdate, recordStatus_updateLang, h0]
            | ok tr =>
              cases hp : env.preprocessOutcome tr.translated_text with
              | ok pr =>
                left
                simp only [processInputPipeline, pipelinePreprocess, hv, hd,
                  htr, hp, Bool.not_true, Bool.false_eq_true, if_false, ne_eq,
                  hl, not_false_eq_true, if_true]
                rw [recordStatus_finalize]
                simp [recordStatus_statusUpdate, recordStatus_updateLang,
                  recordStatus_updateTrans, h0]
              | error e2 =>
                right
                simp only [processInputPipeline, pipelinePreprocess,
                  pipelineFail, hv, hd, htr, hp, Bool.not_true,
                  Bool.false_eq_true, if_false, ne_eq, hl, not_false_eq_true,
                  if_true]
                rw [recordStatus_finalize]
                simp [recordStatus_statusUpdate, recordStatus_updateLang,
                  recordStatus_updateTrans, h0]

/-- Witness for the amended C2 at a concrete successful run. -/
theorem c2_record_status_after_run_witness :
    (cxEnvEnglish.validationOutcome "hola amigo" = Except.ok false →
      recordStatus (processInputPipeline cxEnvEnglish 5 1 "hola amigo" cxDB).1 1
        = some "pending") ∧
    (cxEnvEnglish.validationOutcome "hola amigo" ≠ Except.ok false →
      recordStatus (processInputPipeline cxEnvEnglish 5 1 "hola amigo" cxDB).1 1
          = some "completed" ∨
      recordStatus (processInputPipeline cxEnvEnglish 5 1 "hola amigo" cxDB).1 1
          = some "failed") :=
  c2_record_status_after_run cxEnvEnglish 5 1 "hola amigo" cxDB "pending" rfl

/-- C8: when the detected language equals the target language "en", the run
records PhaseStatus(translation, skipped, 75) with a reason in the phase data,
and makes zero translation calls. -/
theorem c8_translation_skip (env : PipelineEnv) (now i : Nat) (text : String)
    (recs : List InputRecord) (lr : LangResult)
    (hv : env.validationOutcome text = Except.ok true)
    (hd : env.detectOutcome text = Except.ok lr)
    (hl : lr.language = "en") :
    ((findStatus (processInputPipeline env now i text ⟨recs, [], 0⟩).1 i
        Phase.translation).map fun r =>
          (r.status, r.progress_percentage, r.phase_data))
      = some (PStatus.skipped, 75,
          some [("reason", "Text is already in English")]) ∧
    (processInputPipeline env now i text ⟨recs, [], 0⟩).2.translateCalls
      = 0 := by
  cases hp : env.preprocessOutcome text with
  | ok pr =>
    simp [processInputPipeline, pipelinePreprocess, hv, hd, hl, hp,
      statusUpdate, findStatus, statusCreate, statusMatches,
      updateLanguageDetectionResults, updateInputRecordStatus, truthyDict,
      truthyStr, langResultDict, applyRowUpdate_phase_data_truthy]
  | error e =>
    simp [processInputPipeline, pipelinePreprocess, pipelineFail, hv, hd, hl,
      hp, statusUpdate, findStatus, statusCreate, statusMatches,
      updateLanguageDetectionResults, updateInputRecordStatus, truthyDict,
      truthyStr, langResultDict, applyRowUpdate_phase_data_truthy]

/-- Witness for C8 at a concrete English-input run. -/
theorem c8_translation_skip_witness :
    ((findStatus (processInputPipeline cxEnvEnglish 5 1 "hola amigo"
        ⟨[cxRecord], [], 0⟩).1 1 Phase.translation).map fun r =>
          (r.status, r.progress_percentage, r.phase_data))
      = some (PStatus.skipped, 75,
          some [("reason", "Text is already in English")]) ∧
    (processInputPipeline cxEnvEnglish 5 1 "hola amigo"
      ⟨[cxRecord], [], 0⟩).2.translateCalls = 0 :=
  c8_translation_skip cxEnvEnglish 5 1 "hola amigo" [cxRecord]
    ⟨"en", 1, true⟩ rfl rfl rfl

end CineBoard
